import Mathlib

/-!
Shallow embedding of the capture–record–export pipeline of the LOL screen
recording tool (`main.py`): the dual-source audio mixer
(`AudioRecordThread.save_to_file`), the frame capture loop
(`RecordThread.run`), the recording session lifecycle
(`ScreenRecorder.start_recording` / `stop_recording` / `reselect_region`),
and the export encoder (`ExportThread.run`, `_export_video_only`,
`_export_with_audio`).  Audio samples are modelled as rationals, numpy
arrays as lists of rows, and the filesystem touched by the export encoder
as an association list from paths to abstract file contents.
-/

namespace LSR

/-! ### Audio model (`AudioRecordThread`) -/

/-- A 2-D numpy float array of shape `(rows.length, ch)`: one row per raw
sample, `ch` interleaved channels.  Embeds the concatenated per-source audio
buffers of `AudioRecordThread`. -/
structure AudioMatrix where
  rows : List (List ℚ)
  ch : Nat
deriving DecidableEq

/-- A numpy audio array as `ensure_stereo` receives it: either 1-D
(`audio.ndim == 1`) or 2-D. -/
inductive NpAudio
  | oneD (samples : List ℚ)
  | twoD (m : AudioMatrix)
deriving DecidableEq

/-- `len(audio)` — the raw-sample count (first axis length). -/
def NpAudio.nSamples : NpAudio → Nat
  | .oneD s => s.length
  | .twoD m => m.rows.length

/-- Channel count of an audio array (a 1-D array carries one channel). -/
def NpAudio.chOf : NpAudio → Nat
  | .oneD _ => 1
  | .twoD m => m.ch

/-- `np.concatenate` of two chunks along axis 0; `none` models the
`ValueError` numpy raises on incompatible shapes. -/
def npAppend : NpAudio → NpAudio → Option NpAudio
  | .oneD a, .oneD b => some (.oneD (a ++ b))
  | .twoD m, .twoD n =>
      if m.ch = n.ch then some (.twoD ⟨m.rows ++ n.rows, m.ch⟩) else none
  | _, _ => none

/-- `np.concatenate(chunks, axis=0)`: `none` on an empty chunk list or on a
shape mismatch (both raise in numpy). -/
def npConcat : List NpAudio → Option NpAudio
  | [] => none
  | x :: xs => xs.foldl (fun acc y => acc.bind (fun a => npAppend a y)) (some x)

/-- `ensure_stereo` from `AudioRecordThread.save_to_file`: a 1-D array is
column-stacked with itself; a single-column 2-D array has column 0
duplicated; anything else is returned unchanged.  The result is always
2-D. -/
def ensure_stereo : NpAudio → AudioMatrix
  | .oneD s => ⟨s.map (fun x => [x, x]), 2⟩
  | .twoD m =>
      if m.ch = 1 then ⟨m.rows.map (fun r => [r.headD 0, r.headD 0]), 2⟩
      else m

/-- Outcome of `AudioRecordThread.save_to_file`: a mixed buffer written to
the file, the `if not audio_parts: return None` branch, or the
`except`-branch (also returning `None`). -/
inductive SaveResult
  | saved (mixed : List (List ℚ))
  | noData
  | saveError
deriving DecidableEq

/-- One source's contribution to `audio_parts`: skipped when its chunk list
is empty, otherwise the concatenation passed through `ensure_stereo`;
`.error` models a numpy exception escaping to the outer `except`. -/
def sourcePart (data : List NpAudio) : Except Unit (List AudioMatrix) :=
  if data.isEmpty then .ok []
  else match npConcat data with
    | some a => .ok [ensure_stereo a]
    | none => .error ()

/-- The two-part mixing step of `save_to_file`: truncate both parts to the
minimum length, then `np.mean(aligned, axis=0)` sample-wise; `.error`
models the shape-mismatch `ValueError` when the channel counts differ. -/
def mixParts (p q : AudioMatrix) : Except Unit (List (List ℚ)) :=
  let minLen := min p.rows.length q.rows.length
  if p.ch = q.ch then
    .ok (List.zipWith (fun ra rb => List.zipWith (fun x y => (x + y) / 2) ra rb)
          (p.rows.take minLen) (q.rows.take minLen))
  else .error ()

/-- `AudioRecordThread.save_to_file`: build `audio_parts` from the system
source then the microphone source, return `None` when no part exists, the
single part when one exists, and the truncated sample-wise mean when both
do. -/
def save_to_file (sysData micData : List NpAudio) : SaveResult :=
  match sourcePart sysData, sourcePart micData with
  | .error _, _ => .saveError
  | _, .error _ => .saveError
  | .ok l1, .ok l2 =>
      match l1 ++ l2 with
      | [] => .noData
      | [p] => .saved p.rows
      | p :: q :: _ =>
          match mixParts p q with
          | .ok m => .saved m
          | .error _ => .saveError

/-! ### Frame capture loop (`RecordThread.run`) -/

/-- Outcome of one tick's `try` block in the capture loop: either the grab
and colour conversion produced a frame, or some step raised (the message is
what gets printed). -/
inductive TickResult (α : Type)
  | ok (frame : α)
  | err (msg : String)

/-- Mutable state of the capture loop: the `self.frames` list, the running
`count`, and the arguments of the `frame_captured` signals emitted so
far. -/
structure CapState (α : Type) where
  frames : List α
  count : Nat
  emitted : List Nat
deriving DecidableEq

/-- One iteration of the `while self.is_recording` loop body: on success
append the frame, increment the count and emit it; on an exception only
print (state unchanged). -/
def captureTick (s : CapState α) : TickResult α → CapState α
  | .ok f => ⟨s.frames ++ [f], s.count + 1, s.emitted ++ [s.count + 1]⟩
  | .err _ => s

/-- The capture loop over a finite trace of tick outcomes (the loop runs
until the stop flag clears `is_recording`; the trace is what the ticks up
to that point produced). -/
def captureLoop (ticks : List (TickResult α)) (s : CapState α) : CapState α :=
  ticks.foldl captureTick s

/-- The frames of the successful ticks of a trace, in trace order. -/
def okFrames : List (TickResult α) → List α
  | [] => []
  | .ok f :: rest => f :: okFrames rest
  | .err _ :: rest => okFrames rest

/-! ### Recording session (`ScreenRecorder`) -/

/-- The session state mutated by `start_recording` / `stop_recording`:
cumulative frame list, elapsed-time counter, stored audio path. -/
structure Session (α : Type) where
  frames : List α
  recordTime : Nat
  audioFile : Option String
deriving DecidableEq

/-- `ScreenRecorder.start_recording`: `if not self.frames:` reset the frame
list, the time counter and the audio path; otherwise leave all three
untouched (a reselect continuation or a follow-up recording). -/
def startRecording (s : Session α) : Session α :=
  if s.frames.isEmpty then ⟨[], 0, none⟩ else s

/-- `ScreenRecorder.stop_recording` (both `finish=True` and
`finish=False`): after joining the record thread, extend the cumulative
frame list with the sub-run's frames and overwrite the stored audio path
with the sub-run's. -/
def stopRecording (s : Session α) (subFrames : List α) (subAudio : Option String) :
    Session α :=
  ⟨s.frames ++ subFrames, s.recordTime, subAudio⟩

/-! ### Export encoder (`ExportThread`) -/

/-- A frame as the export encoder sees it: its pixel dimensions
(`frame.shape[:2] = (h, w)`); the pixel payload is irrelevant to the
claims under study. -/
structure Frame where
  h : Nat
  w : Nat
deriving DecidableEq

/-- Abstract content of a file on disk: a video container written by
`cv2.VideoWriter` (frames and fps), an animated image written by
`imageio.mimsave`, the muxer's output, or the audio artifact. -/
inductive Content
  | vid (frames : List Frame) (fps : Nat)
  | gif (frames : List Frame) (fps : Nat)
  | muxed
  | wav
deriving DecidableEq

/-- The filesystem as an association list from paths to contents. -/
abbrev FS := List (String × Content)

/-- `os.path.exists`. -/
def FS.get? (fs : FS) (p : String) : Option Content :=
  (fs.find? (fun e => e.1 == p)).map (fun e => e.2)

/-- `os.path.exists` as a Bool. -/
def FS.existsB (fs : FS) (p : String) : Bool :=
  (FS.get? fs p).isSome

/-- Create or overwrite a file. -/
def FS.write (fs : FS) (p : String) (c : Content) : FS :=
  (p, c) :: fs.filter (fun e => e.1 != p)

/-- `os.remove`. -/
def FS.remove (fs : FS) (p : String) : FS :=
  fs.filter (fun e => e.1 != p)

/-- `shutil.copy src dst` when `src` exists; no-op stands for the
`FileNotFoundError` the caller handles. -/
def FS.copy (fs : FS) (src dst : String) : FS :=
  match FS.get? fs src with
  | some c => FS.write fs dst c
  | none => fs

/-- Behaviour of the external `ffmpeg` invocation: the process ran and
exited with `code` (having produced output at the target path or not), or
`subprocess.run` itself raised (executable missing). -/
inductive MuxBehavior
  | exits (code : Int) (producesOutput : Bool)
  | launchFailure
deriving DecidableEq

/-- The fields of `ExportThread`. -/
structure ExportJob where
  frames : List Frame
  path : String
  fps : Nat
  fmt : String
  gif_fps : Nat
  audio_file : Option String
deriving DecidableEq

/-- The argument pair of the terminal `export_finished.emit`. -/
inductive ExportOutcome
  | finished (success : Bool) (msg : String)
deriving DecidableEq

/-- Per-frame size cap of the GIF path: `cv2.resize(rgb, (0,0), fx=scale,
fy=scale)` with `scale = 1000 / w` when `w > 1000`; the resized dimensions
are the scaled sizes rounded to the nearest integer. -/
def gifScale (f : Frame) : Frame :=
  if 1000 < f.w then
    ⟨(round ((f.h : ℚ) * (1000 / (f.w : ℚ)))).toNat,
     (round ((f.w : ℚ) * (1000 / (f.w : ℚ)))).toNat⟩
  else f

/-- Helper of `strideSlice`: take the head when the skip counter hits 0 and
reset it to `step - 1`, else decrement. -/
def strideAux (step : Nat) : List α → Nat → List α
  | [], _ => []
  | a :: rest, 0 => a :: strideAux step rest (step - 1)
  | _ :: rest, k + 1 => strideAux step rest k

/-- Python slicing `l[::step]` for a positive `step`: the elements at
indices `0, step, 2*step, ...` in order. -/
def strideSlice (l : List α) (step : Nat) : List α :=
  strideAux step l 0

/-- `ExportThread._export_video_only`: open one `cv2.VideoWriter` at the
target path, write every frame in order, release. -/
def export_video_only (job : ExportJob) (fs : FS) : FS :=
  FS.write fs job.path (.vid job.frames job.fps)

/-- `ExportThread._export_with_audio`: write all frames to a temporary
video file, then run `ffmpeg`.  On a normal exit: possibly-produced output
at the target path, then remove the temp video and the audio file (each
guarded by an existence check), then — only if the exit code was non-zero —
`shutil.copy(temp_video, path)`, whose `FileNotFoundError` (the temp video
was just removed) lands in the `except` branch, which re-checks existence
before copying.  On a launch failure: the `except` branch copies the temp
video to the target path if it exists. -/
def export_with_audio (job : ExportJob) (audioFile tempVideo : String)
    (mux : MuxBehavior) (fs0 : FS) : FS :=
  let fs1 := FS.write fs0 tempVideo (.vid job.frames job.fps)
  match mux with
  | .launchFailure =>
      if FS.existsB fs1 tempVideo then FS.copy fs1 tempVideo job.path else fs1
  | .exits code producesOutput =>
      let fs2 := if producesOutput then FS.write fs1 job.path .muxed else fs1
      let fs3 := if FS.existsB fs2 tempVideo then FS.remove fs2 tempVideo else fs2
      let fs4 := if FS.existsB fs3 audioFile then FS.remove fs3 audioFile else fs3
      if code ≠ 0 then
        if FS.existsB fs4 tempVideo then FS.copy fs4 tempVideo job.path else fs4
      else fs4

/-- `ExportThread.run`: fail fast on an empty frame list; on `gif`, select
every `max(1, fps // gif_fps)`-th frame, scale capped frames, and save at
`gif_fps`; otherwise dispatch on `audio_file and os.path.exists(audio_file)`
between the mux path and the video-only path. -/
def exportRun (job : ExportJob) (tempVideo : String) (mux : MuxBehavior)
    (fs : FS) : ExportOutcome × FS :=
  if job.frames.length = 0 then
    (.finished false "没有录制到任何帧", fs)
  else if job.fmt = "gif" then
    let step := max 1 (job.fps / job.gif_fps)
    let processed := (strideSlice job.frames step).map gifScale
    (.finished true job.path, FS.write fs job.path (.gif processed job.gif_fps))
  else
    match job.audio_file with
    | some af =>
        if FS.existsB fs af then
          (.finished true job.path, export_with_audio job af tempVideo mux fs)
        else
          (.finished true job.path, export_video_only job fs)
    | none => (.finished true job.path, export_video_only job fs)

/-- End of `RecordThread.run` for an audio-enabled sub-run: the thread
unconditionally stores the temp path into `self.audio_file`, and
`save_to_file` writes a file there only when it produced a mixed buffer and
the write itself succeeded (`writeOk` abstracts the soundfile write). -/
def recordFinishAudio (sysData micData : List NpAudio) (writeOk : Bool)
    (tempPath : String) (fs : FS) : Option String × FS :=
  (some tempPath,
    match save_to_file sysData micData with
    | .saved _ => if writeOk then FS.write fs tempPath .wav else fs
    | _ => fs)

/-! ### Helper lemmas -/

theorem captureLoop_cons (t : TickResult α) (rest : List (TickResult α))
    (s : CapState α) : captureLoop (t :: rest) s = captureLoop rest (captureTick s t) :=
  rfl

theorem captureLoop_spec (ticks : List (TickResult α)) (s : CapState α) :
    (captureLoop ticks s).frames = s.frames ++ okFrames ticks ∧
    (captureLoop ticks s).count = s.count + (okFrames ticks).length := by
  induction ticks generalizing s with
  | nil => simp [captureLoop, okFrames]
  | cons t rest ih =>
    cases t with
    | ok f =>
      rw [captureLoop_cons]
      obtain ⟨h1, h2⟩ := ih (captureTick s (.ok f))
      refine ⟨?_, ?_⟩
      · rw [h1]; simp [captureTick, okFrames]
      · rw [h2]; simp [captureTick, okFrames]; omega
    | err msg =>
      rw [captureLoop_cons]
      obtain ⟨h1, h2⟩ := ih (captureTick s (.err msg))
      exact ⟨by rw [h1]; simp [captureTick, okFrames],
             by rw [h2]; simp [captureTick, okFrames]⟩

theorem session_two_runs (A B : List α) (a1 a2 : Option String) :
    (stopRecording (startRecording
        (stopRecording (startRecording (⟨[], 0, none⟩ : Session α)) A a1)) B a2).frames =
      A ++ B := by
  by_cases hA : A = []
  · subst hA; simp [startRecording, stopRecording]
  · have h : (A.isEmpty = false) := by
      cases A with
      | nil => exact absurd rfl hA
      | cons x xs => rfl
    simp [startRecording, stopRecording, h]

/-- C7 — A failed capture tick is swallowed: the loop state is unchanged (no
frame appended, no count increment, no signal), the loop continues with the
remaining ticks, and over any trace the loop accumulates exactly the frames
of the successful ticks — it never aborts. -/
theorem capture_error_swallowed_loop_continues :
    (∀ (α : Type) (s : CapState α) (msg : String), captureTick s (.err msg) = s) ∧
    (∀ (α : Type) (s : CapState α) (msg : String) (rest : List (TickResult α)),
      captureLoop (.err msg :: rest) s = captureLoop rest s) ∧
    (∀ (α : Type) (ticks : List (TickResult α)),
      (captureLoop ticks (⟨[], 0, []⟩ : CapState α)).frames = okFrames ticks ∧
      (captureLoop ticks (⟨[], 0, []⟩ : CapState α)).count = (okFrames ticks).length) := by
  refine ⟨fun α s msg => rfl, fun α s msg rest => rfl, fun α ticks => ?_⟩
  obtain ⟨h1, h2⟩ := captureLoop_spec ticks (⟨[], 0, []⟩ : CapState α)
  exact ⟨by simpa using h1, by simpa using h2⟩

/-- C6 — Reselection preserves already-captured frames: capturing a first
sub-run, reselecting (a `finish=False` stop followed by a fresh start), and
capturing a second sub-run leaves the cumulative sequence equal to the first
sub-run's frames followed by the second's, of length `k + m`. -/
theorem reselect_preserves_frames (α : Type) (ticks1 ticks2 : List (TickResult α))
    (a1 a2 : Option String) :
    (stopRecording (startRecording (stopRecording (startRecording (⟨[], 0, none⟩ : Session α))
          (captureLoop ticks1 ⟨[], 0, []⟩).frames a1))
        (captureLoop ticks2 ⟨[], 0, []⟩).frames a2).frames =
      okFrames ticks1 ++ okFrames ticks2 ∧
    (stopRecording (startRecording (stopRecording (startRecording (⟨[], 0, none⟩ : Session α))
          (captureLoop ticks1 ⟨[], 0, []⟩).frames a1))
        (captureLoop ticks2 ⟨[], 0, []⟩).frames a2).frames.length =
      (okFrames ticks1).length + (okFrames ticks2).length := by
  have e1 : (captureLoop ticks1 (⟨[], 0, []⟩ : CapState α)).frames = okFrames ticks1 := by
    simpa using (captureLoop_spec ticks1 (⟨[], 0, []⟩ : CapState α)).1
  have e2 : (captureLoop ticks2 (⟨[], 0, []⟩ : CapState α)).frames = okFrames ticks2 := by
    simpa using (captureLoop_spec ticks2 (⟨[], 0, []⟩ : CapState α)).1
  rw [e1, e2, session_two_runs]
  exact ⟨rfl, List.length_append _ _⟩

/-- C9 — The cumulative frame sequence is never cleared once non-empty:
`start_recording` resets the frame list, time counter and audio path only
when the frame list is already empty; a stop always appends; hence a
brand-new recording started after a completed stop appends its frames to
the previous recording's frames. -/
theorem frames_never_cleared_once_nonempty :
    (∀ (α : Type) (s : Session α), s.frames ≠ [] → startRecording s = s) ∧
    (∀ (α : Type) (s : Session α), s.frames = [] →
      startRecording s = (⟨[], 0, none⟩ : Session α)) ∧
    (∀ (α : Type) (s : Session α) (sub : List α) (a : Option String),
      (stopRecording s sub a).frames = s.frames ++ sub) ∧
    (∀ (α : Type) (A B : List α) (a1 a2 : Option String), A ≠ [] →
      (stopRecording (startRecording
          (stopRecording (startRecording (⟨[], 0, none⟩ : Session α)) A a1)) B a2).frames =
        A ++ B) := by
  refine ⟨fun α s h => ?_, fun α s h => ?_, fun α s sub a => rfl,
    fun α A B a1 a2 _ => session_two_runs A B a1 a2⟩
  · have : s.frames.isEmpty = false := by
      cases hf : s.frames with
      | nil => exact absurd hf h
      | cons x xs => rfl
    simp [startRecording, this]
  · simp [startRecording, h]

/-- Witness for C9 at concrete inputs. -/
theorem frames_never_cleared_once_nonempty_witness :
    startRecording (⟨[0], 7, some "a.wav"⟩ : Session Nat) = ⟨[0], 7, some "a.wav"⟩ ∧
    (stopRecording (startRecording
        (stopRecording (startRecording (⟨[], 0, none⟩ : Session Nat)) [1, 2] none)) [3]
        none).frames = [1, 2] ++ [3] :=
  ⟨frames_never_cleared_once_nonempty.1 Nat ⟨[0], 7, some "a.wav"⟩ (by decide),
   frames_never_cleared_once_nonempty.2.2.2 Nat [1, 2] [3] none none (by decide)⟩

/-- C2 — An export job with an empty frame sequence terminates immediately
with the "no frames recorded" reason and leaves the filesystem untouched:
no output file, no temporary video, no container writer. -/
theorem export_empty_frames_fails_fast (job : ExportJob) (tempVideo : String)
    (mux : MuxBehavior) (fs : FS) (h : job.frames = []) :
    exportRun job tempVideo mux fs = (.finished false "没有录制到任何帧", fs) := by
  simp [exportRun, h]

/-- Witness for C2 at a concrete empty-frame job. -/
theorem export_empty_frames_fails_fast_witness :
    exportRun ⟨[], "out.mp4", 30, "mp4", 10, none⟩ "tmp.mp4" (.exits 0 true) [] =
      (.finished false "没有录制到任何帧", []) :=
  export_empty_frames_fails_fast _ _ _ _ rfl

theorem strideAux_succ (step : Nat) (l : List α) (k : Nat) :
    strideAux step l (k + 1) = strideAux step l.tail k := by
  cases l <;> rfl

theorem strideAux_eq_drop (step : Nat) (k : Nat) (l : List α) :
    strideAux step l k = strideAux step (l.drop k) 0 := by
  induction k generalizing l with
  | zero => simp
  | succ k ih =>
    rw [strideAux_succ, ih]
    cases l with
    | nil => simp
    | cons a rest => rfl

theorem strideSlice_getElem? (l : List α) (step : Nat) (hs : 1 ≤ step) (i : Nat) :
    (strideSlice l step)[i]? = l[i * step]? := by
  obtain ⟨s, rfl⟩ : ∃ s, step = s + 1 := ⟨step - 1, by omega⟩
  induction i generalizing l with
  | zero =>
    cases l with
    | nil => rfl
    | cons a rest => simp [strideSlice, strideAux]
  | succ i ih =>
    cases l with
    | nil => simp [strideSlice, strideAux]
    | cons a rest =>
      show (a :: strideAux (s + 1) rest (s + 1 - 1))[i + 1]? = (a :: rest)[(i + 1) * (s + 1)]?
      rw [List.getElem?_cons_succ, show s + 1 - 1 = s from rfl, strideAux_eq_drop,
        show strideAux (s + 1) (rest.drop s) 0 = strideSlice (rest.drop s) (s + 1) from rfl,
        ih (rest.drop s), List.getElem?_drop,
        show (i + 1) * (s + 1) = (s + i * (s + 1)) + 1 by ring, List.getElem?_cons_succ]

theorem strideSlice_one (l : List α) : strideSlice l 1 = l := by
  refine List.ext_getElem? fun n => ?_
  rw [strideSlice_getElem? l 1 le_rfl n, Nat.mul_one]

/-- C5 — The GIF path selects every `max(1, fps // gif_fps)`-th frame in
temporal order: element `i` of the selection is element `i * step` of the
full sequence; a step of 1 selects every frame; capture fps 30 gives step 3
for target 10, step 1 for target 30, and step 1 (clamped) for target 40;
and the encoder writes exactly that selection (scaled) at `gif_fps`. -/
theorem gif_selects_every_stepth :
    (∀ (l : List Frame) (step : Nat), 1 ≤ step → ∀ i : Nat,
      (strideSlice l step)[i]? = l[i * step]?) ∧
    (∀ l : List Frame, strideSlice l 1 = l) ∧
    (max 1 (30 / 10) = 3 ∧ max 1 (30 / 30) = 1 ∧ max 1 (30 / 40) = 1) ∧
    (∀ (job : ExportJob) (tempVideo : String) (mux : MuxBehavior) (fs : FS),
      job.frames ≠ [] → job.fmt = "gif" →
      exportRun job tempVideo mux fs =
        (.finished true job.path,
         FS.write fs job.path
           (.gif ((strideSlice job.frames (max 1 (job.fps / job.gif_fps))).map gifScale)
             job.gif_fps))) := by
  refine ⟨fun l step hs i => strideSlice_getElem? l step hs i, strideSlice_one,
    ⟨rfl, rfl, rfl⟩, fun job tempVideo mux fs hne hfmt => ?_⟩
  have hlen : ¬ job.frames.length = 0 := by
    simpa [List.length_eq_zero] using hne
  simp [exportRun, hlen, hfmt]

/-- Witness for C5: index 1 of a 7-frame selection at step 3 is frame 3, and
a concrete one-frame GIF job writes the selected, scaled sequence. -/
theorem gif_selects_every_stepth_witness :
    (strideSlice [(⟨1, 1⟩ : Frame), ⟨2, 2⟩, ⟨3, 3⟩, ⟨4, 4⟩, ⟨5, 5⟩, ⟨6, 6⟩, ⟨7, 7⟩] 3)[1]? =
      [(⟨1, 1⟩ : Frame), ⟨2, 2⟩, ⟨3, 3⟩, ⟨4, 4⟩, ⟨5, 5⟩, ⟨6, 6⟩, ⟨7, 7⟩][1 * 3]? ∧
    exportRun ⟨[⟨8, 9⟩], "rec.gif", 30, "gif", 10, none⟩ "tmp.mp4" (.exits 0 true) [] =
      (.finished true "rec.gif",
       FS.write [] "rec.gif"
         (.gif ((strideSlice [(⟨8, 9⟩ : Frame)] (max 1 (30 / 10))).map gifScale) 10)) :=
  ⟨gif_selects_every_stepth.1 _ 3 (by decide) 1,
   gif_selects_every_stepth.2.2.2 ⟨[⟨8, 9⟩], "rec.gif", 30, "gif", 10, none⟩ "tmp.mp4"
     (.exits 0 true) [] (by decide) rfl⟩

/-- C8 — In the GIF path every frame wider than 1000 px is downscaled with
the uniform factor `1000 / w` applied to both axes (new width exactly 1000,
new height the rounded scaled height, both strictly bounded by the
originals), while frames of width at most 1000 are passed through
unchanged. -/
theorem gif_downscale_cap (f : Frame) :
    (1000 < f.w →
      gifScale f = ⟨(round ((f.h : ℚ) * (1000 / (f.w : ℚ)))).toNat, 1000⟩ ∧
      (gifScale f).w < f.w ∧ (gifScale f).h ≤ f.h) ∧
    (f.w ≤ 1000 → gifScale f = f) := by
  constructor
  · intro hw
    have hw0 : (f.w : ℚ) ≠ 0 := by positivity
    have hwq : (f.w : ℚ) * (1000 / (f.w : ℚ)) = 1000 := by field_simp
    have hscaled : gifScale f =
        ⟨(round ((f.h : ℚ) * (1000 / (f.w : ℚ)))).toNat, 1000⟩ := by
      simp only [gifScale, if_pos hw, hwq]
      have : round ((1000 : ℚ)) = ((1000 : ℕ) : ℤ) := by
        rw [show ((1000 : ℚ)) = ((1000 : ℕ) : ℚ) by norm_num, round_natCast]
      rw [this, Int.toNat_natCast]
    refine ⟨hscaled, ?_, ?_⟩
    · rw [hscaled]; exact hw
    · rw [hscaled]
      have hq1 : (1000 : ℚ) / (f.w : ℚ) ≤ 1 := by
        rw [div_le_one (by positivity)]
        exact_mod_cast hw.le
      have hle : (f.h : ℚ) * (1000 / (f.w : ℚ)) ≤ (f.h : ℚ) := by
        calc (f.h : ℚ) * (1000 / (f.w : ℚ)) ≤ (f.h : ℚ) * 1 :=
              mul_le_mul_of_nonneg_left hq1 (by positivity)
          _ = (f.h : ℚ) := mul_one _
      show (round ((f.h : ℚ) * (1000 / (f.w : ℚ)))).toNat ≤ f.h
      rw [Int.toNat_le]
      calc round ((f.h : ℚ) * (1000 / (f.w : ℚ))) ≤ round ((f.h : ℚ)) := by
            rw [round_eq, round_eq]
            exact Int.floor_le_floor (by linarith)
        _ = (f.h : ℤ) := round_natCast f.h
  · intro hw
    simp [gifScale, Nat.not_lt.mpr hw]

/-- Witness for C8: a 2000-px-wide frame is scaled to width 1000 and a
800-px-wide frame is untouched. -/
theorem gif_downscale_cap_witness :
    (gifScale ⟨500, 2000⟩ = ⟨(round ((500 : ℚ) * (1000 / (2000 : ℚ)))).toNat, 1000⟩ ∧
      (gifScale ⟨500, 2000⟩).w < 2000 ∧ (gifScale ⟨500, 2000⟩).h ≤ 500) ∧
    gifScale ⟨100, 800⟩ = ⟨100, 800⟩ :=
  ⟨(gif_downscale_cap ⟨500, 2000⟩).1 (by decide),
   (gif_downscale_cap ⟨100, 800⟩).2 (by decide)⟩

theorem ensure_stereo_rows_length (a : NpAudio) :
    (ensure_stereo a).rows.length = a.nSamples := by
  cases a with
  | oneD s => simp [ensure_stereo, NpAudio.nSamples]
  | twoD m =>
    by_cases h : m.ch = 1 <;> simp [ensure_stereo, NpAudio.nSamples, h]

theorem npConcat_ne_nil {data : List NpAudio} {a : NpAudio}
    (h : npConcat data = some a) : data.isEmpty = false := by
  cases data with
  | nil => simp [npConcat] at h
  | cons x xs => rfl

theorem sourcePart_of_concat {data : List NpAudio} {a : NpAudio}
    (h : npConcat data = some a) : sourcePart data = .ok [ensure_stereo a] := by
  rw [sourcePart, npConcat_ne_nil h]
  simp [h]

theorem sourcePart_nil : sourcePart [] = .ok [] := rfl

/-- C3 counterexample — the claim "if both sources produced data with total
raw-sample lengths N1 and N2, the mixed stream has exactly min(N1, N2)
samples" is false: a 3-channel system source (N1 = 1, the loopback channel
count is taken from the device uncapped) and a stereo microphone source
(N2 = 2) both produce data, yet after `ensure_stereo` leaves the 3-channel
part unchanged `np.mean` raises on the shape mismatch, the exception is
caught, and `save_to_file` returns `None` — no mixed stream of any length
is produced. -/
theorem mixer_min_length_counterexample :
    save_to_file [NpAudio.twoD ⟨[[1, 2, 3]], 3⟩] [NpAudio.twoD ⟨[[4, 5], [6, 7]], 2⟩] =
      .saveError ∧
    ∀ m : List (List ℚ),
      save_to_file [NpAudio.twoD ⟨[[1, 2, 3]], 3⟩] [NpAudio.twoD ⟨[[4, 5], [6, 7]], 2⟩] ≠
        .saved m := by
  have h : save_to_file [NpAudio.twoD ⟨[[1, 2, 3]], 3⟩]
      [NpAudio.twoD ⟨[[4, 5], [6, 7]], 2⟩] = .saveError := by decide
  refine ⟨h, fun m hm => ?_⟩
  rw [h] at hm
  exact SaveResult.noConfusion hm

/-- C3 amended — Lengths of the mixed stream: two data-producing sources
whose coerced forms agree in channel count (as always holds when each
source captured 1 or 2 channels) yield exactly `min N1 N2` samples, each
the arithmetic mean of the aligned rows of the two coerced sources; two
data-producing sources whose coerced channel counts differ make the mix
raise, caught as a save error with no artifact; one source yields its full
length; zero sources yield no artifact (`noData`, not an error). -/
theorem mixer_save_lengths :
    (∀ (sysData micData : List NpAudio) (a b : NpAudio),
      npConcat sysData = some a → npConcat micData = some b →
      (ensure_stereo a).ch = (ensure_stereo b).ch →
      ∃ m, save_to_file sysData micData = .saved m ∧
        m.length = min a.nSamples b.nSamples ∧
        ∀ i, i < min a.nSamples b.nSamples →
          ∃ ra rb, (ensure_stereo a).rows[i]? = some ra ∧
            (ensure_stereo b).rows[i]? = some rb ∧
            m[i]? = some (List.zipWith (fun x y => (x + y) / 2) ra rb)) ∧
    (∀ (sysData micData : List NpAudio) (a b : NpAudio),
      npConcat sysData = some a → npConcat micData = some b →
      (ensure_stereo a).ch ≠ (ensure_stereo b).ch →
      save_to_file sysData micData = .saveError) ∧
    (∀ (sysData : List NpAudio) (a : NpAudio), npConcat sysData = some a →
      save_to_file sysData [] = .saved (ensure_stereo a).rows ∧
      (ensure_stereo a).rows.length = a.nSamples) ∧
    (∀ (micData : List NpAudio) (b : NpAudio), npConcat micData = some b →
      save_to_file [] micData = .saved (ensure_stereo b).rows ∧
      (ensure_stereo b).rows.length = b.nSamples) ∧
    save_to_file [] [] = .noData := by
  refine ⟨fun sysData micData a b h1 h2 hch => ?_,
    fun sysData micData a b h1 h2 hch => ?_,
    fun sysData a h1 => ?_, fun micData b h2 => ?_, rfl⟩
  · have la := ensure_stereo_rows_length a
    have lb := ensure_stereo_rows_length b
    have hsave : save_to_file sysData micData =
        .saved (List.zipWith (fun ra rb => List.zipWith (fun x y => (x + y) / 2) ra rb)
          ((ensure_stereo a).rows.take
            (min (ensure_stereo a).rows.length (ensure_stereo b).rows.length))
          ((ensure_stereo b).rows.take
            (min (ensure_stereo a).rows.length (ensure_stereo b).rows.length))) := by
      rw [save_to_file, sourcePart_of_concat h1, sourcePart_of_concat h2]
      simp [mixParts, hch]
    refine ⟨_, hsave, ?_, fun i hi => ?_⟩
    · rw [List.length_zipWith, List.length_take, List.length_take, la, lb]
      omega
    · have hia : i < (ensure_stereo a).rows.length := by omega
      have hib : i < (ensure_stereo b).rows.length := by omega
      have hta : ((ensure_stereo a).rows.take
          (min (ensure_stereo a).rows.length (ensure_stereo b).rows.length))[i]? =
          some (ensure_stereo a).rows[i] := by
        rw [List.getElem?_take, if_pos (by omega), List.getElem?_eq_getElem hia]
      have htb : ((ensure_stereo b).rows.take
          (min (ensure_stereo a).rows.length (ensure_stereo b).rows.length))[i]? =
          some (ensure_stereo b).rows[i] := by
        rw [List.getElem?_take, if_pos (by omega), List.getElem?_eq_getElem hib]
      refine ⟨(ensure_stereo a).rows[i], (ensure_stereo b).rows[i],
        List.getElem?_eq_getElem hia, List.getElem?_eq_getElem hib, ?_⟩
      rw [List.getElem?_zipWith, hta, htb]
  · rw [save_to_file, sourcePart_of_concat h1, sourcePart_of_concat h2]
    simp [mixParts, hch]
  · rw [save_to_file, sourcePart_of_concat h1, sourcePart_nil]
    exact ⟨rfl, ensure_stereo_rows_length a⟩
  · rw [save_to_file, sourcePart_nil, sourcePart_of_concat h2]
    exact ⟨rfl, ensure_stereo_rows_length b⟩

/-- Witness for C3's amended claim: a 3-sample mono system source mixed
with a 2-sample stereo microphone source gives a `min 3 2`-sample artifact;
a 3-channel source against a stereo source gives a save error; a lone
source keeps its length; no sources give `noData`. -/
theorem mixer_save_lengths_witness :
    (∃ m, save_to_file [NpAudio.oneD [1, 2, 3]] [NpAudio.twoD ⟨[[4, 4], [6, 6]], 2⟩] =
        .saved m ∧ m.length = min 3 2) ∧
    save_to_file [NpAudio.twoD ⟨[[8, 8, 8]], 3⟩] [NpAudio.twoD ⟨[[4, 4], [6, 6]], 2⟩] =
      .saveError ∧
    save_to_file [NpAudio.oneD [5]] [] = .saved (ensure_stereo (.oneD [5])).rows ∧
    save_to_file [] [] = .noData := by
  obtain ⟨m, hm, hlen, -⟩ := mixer_save_lengths.1 [NpAudio.oneD [1, 2, 3]]
    [NpAudio.twoD ⟨[[4, 4], [6, 6]], 2⟩] (.oneD [1, 2, 3]) (.twoD ⟨[[4, 4], [6, 6]], 2⟩)
    (by decide) (by decide) (by decide)
  exact ⟨⟨m, hm, hlen⟩,
    mixer_save_lengths.2.1 [NpAudio.twoD ⟨[[8, 8, 8]], 3⟩] [NpAudio.twoD ⟨[[4, 4], [6, 6]], 2⟩]
      (.twoD ⟨[[8, 8, 8]], 3⟩) (.twoD ⟨[[4, 4], [6, 6]], 2⟩) (by decide) (by decide) (by decide),
    (mixer_save_lengths.2.2.1 [NpAudio.oneD [5]] (.oneD [5]) (by decide)).1,
    mixer_save_lengths.2.2.2.2⟩

/-- C4 counterexample — the claim "every source, regardless of its captured
channel count, is coerced to 2 channels" is false: a 3-channel source (the
system loopback channel count is taken from the device uncapped) passes
through `ensure_stereo` unchanged, and the resulting artifact keeps its 3
channels. -/
theorem mixed_artifact_not_always_stereo :
    ensure_stereo (.twoD ⟨[[1, 2, 3]], 3⟩) = ⟨[[1, 2, 3]], 3⟩ ∧
    save_to_file [NpAudio.twoD ⟨[[1, 2, 3]], 3⟩] [] = .saved [[1, 2, 3]] ∧
    ¬ ∀ r ∈ [[(1 : ℚ), 2, 3]], r.length = 2 := by
  refine ⟨by decide, by decide, ?_⟩
  intro h
  have := h [1, 2, 3] (by decide)
  simp at this

/-- C4 amended — Mono sources (1-D, or 2-D with a single column) are
coerced to 2 channels with both channels numerically identical to the
original samples; a source with any other channel count passes through
unchanged; hence the coerced buffer is stereo whenever the captured source
had 1 or 2 channels. -/
theorem ensure_stereo_mono_coercion :
    (∀ s : List ℚ, ensure_stereo (.oneD s) = ⟨s.map (fun x => [x, x]), 2⟩) ∧
    (∀ s : List ℚ, ∀ i : Nat,
      (ensure_stereo (.oneD s)).rows[i]? = (s[i]?).map (fun x => [x, x])) ∧
    (∀ rows : List (List ℚ), ensure_stereo (.twoD ⟨rows, 1⟩) =
      ⟨rows.map (fun r => [r.headD 0, r.headD 0]), 2⟩) ∧
    (∀ m : AudioMatrix, m.ch ≠ 1 → ensure_stereo (.twoD m) = m) ∧
    (∀ a : NpAudio, a.chOf = 1 ∨ a.chOf = 2 → (ensure_stereo a).ch = 2) := by
  refine ⟨fun s => rfl, fun s i => by simp [ensure_stereo], fun rows => rfl,
    fun m hm => by simp [ensure_stereo, hm], fun a ha => ?_⟩
  cases a with
  | oneD s => rfl
  | twoD m =>
    rcases ha with h | h
    · simp only [NpAudio.chOf] at h
      simp [ensure_stereo, h]
    · simp only [NpAudio.chOf] at h
      simp [ensure_stereo, h]

/-- Witness for C4's amended claim at concrete channel counts. -/
theorem ensure_stereo_mono_coercion_witness :
    ensure_stereo (.twoD ⟨[[1, 2], [3, 4]], 2⟩) = ⟨[[1, 2], [3, 4]], 2⟩ ∧
    (ensure_stereo (.oneD [5, 6])).ch = 2 :=
  ⟨ensure_stereo_mono_coercion.2.2.2.1 ⟨[[1, 2], [3, 4]], 2⟩ (by decide),
   ensure_stereo_mono_coercion.2.2.2.2 (.oneD [5, 6]) (Or.inl rfl)⟩

/-- C10 — After an audio-enabled sub-run the record thread stores the
temporary audio path even when nothing was written there (no source
produced data, or the write failed), and the export encoder treats such a
dangling path exactly like no audio at all: the dispatch is identical to a
job with `audio_file = None`. -/
theorem stale_audio_path_video_only :
    (∀ (sysData micData : List NpAudio) (writeOk : Bool) (tempPath : String) (fs : FS),
      save_to_file sysData micData = .noData ∨ writeOk = false →
      recordFinishAudio sysData micData writeOk tempPath fs = (some tempPath, fs)) ∧
    (∀ (job : ExportJob) (p tempVideo : String) (mux : MuxBehavior) (fs : FS),
      job.audio_file = some p → FS.existsB fs p = false →
      exportRun job tempVideo mux fs =
        exportRun { job with audio_file := none } tempVideo mux fs) := by
  constructor
  · intro sysData micData writeOk tempPath fs h
    rcases h with h | h
    · simp [recordFinishAudio, h]
    · cases hs : save_to_file sysData micData <;>
        simp [recordFinishAudio, hs, h]
  · intro job p tempVideo mux fs hp hex
    by_cases hlen : job.frames.length = 0
    · simp [exportRun, hlen]
    · by_cases hfmt : job.fmt = "gif"
      · simp [exportRun, hlen, hfmt]
      · simp [exportRun, hlen, hfmt, hp, hex, export_video_only]

/-- Witness for C10: an audio sub-run with no captured data stores the temp
path without creating the file, and export with that dangling path equals
export with no audio. -/
theorem stale_audio_path_video_only_witness :
    recordFinishAudio [] [] true "t.wav" [] = (some "t.wav", []) ∧
    exportRun ⟨[⟨10, 20⟩], "o.mp4", 30, "mp4", 10, some "t.wav"⟩ "tv.mp4" (.exits 0 true) [] =
      exportRun ⟨[⟨10, 20⟩], "o.mp4", 30, "mp4", 10, none⟩ "tv.mp4" (.exits 0 true) [] :=
  ⟨stale_audio_path_video_only.1 [] [] true "t.wav" [] (Or.inl rfl),
   stale_audio_path_video_only.2 ⟨[⟨10, 20⟩], "o.mp4", 30, "mp4", 10, some "t.wav"⟩ "t.wav"
     "tv.mp4" (.exits 0 true) [] rfl rfl⟩

/-- C1 (code bug) — With one frame, a raster format, and an existing audio
file, a mux process exiting non-zero leaves the job reporting success while
the temp video has been removed *before* the fallback copy, whose
`FileNotFoundError` is swallowed: the requested output path ends up with no
file at all instead of the promised video-only copy.  (The launch-failure
branch, by contrast, does deliver the video-only copy, confirming the
intended fallback.) -/
theorem mux_failure_fallback_lost :
    exportRun ⟨[⟨100, 100⟩], "out.mp4", 30, "mp4", 10, some "audio.wav"⟩
        "tmp_video.mp4" (.exits 1 false) [("audio.wav", .wav)] =
      (.finished true "out.mp4", []) ∧
    FS.get? (exportRun ⟨[⟨100, 100⟩], "out.mp4", 30, "mp4", 10, some "audio.wav"⟩
        "tmp_video.mp4" (.exits 1 false) [("audio.wav", .wav)]).2 "out.mp4" = none ∧
    FS.get? (exportRun ⟨[⟨100, 100⟩], "out.mp4", 30, "mp4", 10, some "audio.wav"⟩
        "tmp_video.mp4" .launchFailure [("audio.wav", .wav)]).2 "out.mp4" =
      some (.vid [⟨100, 100⟩] 30) := by
  refine ⟨by decide, by decide, by decide⟩

end LSR
